import Mathlib

/-!
# Verification of `ironic_lib` disk provisioning

Shallow embedding of the partition-planning and disk-provisioning code of
the `ironic-lib` repository (`ironic_lib/disk_utils.py` and the
`DiskPartitioner` contract exercised by
`ironic_lib/tests/test_disk_partitioner.py`), together with proofs of the
spec's testable properties.

The `disk_partitioner` module itself is not among the provided source
files; only its test suite and its caller (`disk_utils.make_partitions`)
are.  Its definitions below are therefore modelled from the specification
(§3, §4.1, §4.2), with every free choice pinned down by the expectations
of the test suite (exact `parted` argument lists, probe counts, etc.).
`disk_utils.py` definitions are translated directly from the source, with
the external collaborators (privileged command execution, HTTP fetch,
base64/gzip decoding, `os.stat`, `blkid`) abstracted as oracle parameters.
-/

namespace IronicLib

/-- One planned partition, as stored by the planner.  Modelled from the
spec: PartitionSpec has `size_mib`, `fs_type`, `boot_flag` (one of none,
`"boot"`, `"bios_grub"`) and a partition `type` label; the test
`test_add_partition` shows the stored dictionary has exactly the keys
`size`, `fs_type`, `boot_flag`, `type` with defaults `''`, `None`,
`'primary'`. -/
structure PartSpec where
  size : Nat
  fs_type : String
  boot_flag : Option String
  type : String
deriving Repr, DecidableEq

/-- Modelled from the spec: the `DiskPartitioner` accumulates an ordered
list of partition specifications for one device, under a table label that
is `msdos` by default and `gpt` when UEFI local boot is requested
(spec §3 PartitionTable). -/
structure DiskPartitioner where
  device : String
  disk_label : String
  partitions : List PartSpec
deriving Repr, DecidableEq

/-- Modelled from the spec: constructing a `DiskPartitioner(device,
disk_label)`; a fresh planner holds no partitions. -/
def DiskPartitioner.create (device disk_label : String) : DiskPartitioner :=
  { device := device, disk_label := disk_label, partitions := [] }

/-- Modelled from the spec: `add_partition(size, fs_type='',
boot_flag=None, part_type='primary')` appends a PartitionSpec and returns
its assigned 1-based sequential partition number (spec §4.1). -/
def DiskPartitioner.add_partition (dp : DiskPartitioner) (size : Nat)
    (fs_type : String) (boot_flag : Option String) (type : String) :
    DiskPartitioner × Nat :=
  let parts := dp.partitions ++ [⟨size, fs_type, boot_flag, type⟩]
  ({ dp with partitions := parts }, parts.length)

/-- Pair each element of `l` with its 1-based position starting at `n`. -/
def numberFrom : Nat → List PartSpec → List (Nat × PartSpec)
  | _, [] => []
  | n, p :: ps => (n, p) :: numberFrom (n + 1) ps

/-- Modelled from the spec: `get_partitions()` returns the ordered
sequence of `(number, spec)` pairs, numbers dense from 1, insertion order
preserved (spec §4.1). -/
def DiskPartitioner.get_partitions (dp : DiskPartitioner) :
    List (Nat × PartSpec) :=
  numberFrom 1 dp.partitions

/-- A sequence of `add_partition` calls (each element carries the
arguments of one call, defaults already filled in); returns the final
planner state and the list of partition numbers returned by the calls,
in call order. -/
def addMany (dp : DiskPartitioner) : List PartSpec → DiskPartitioner × List Nat
  | [] => (dp, [])
  | r :: rs =>
    let step := dp.add_partition r.size r.fs_type r.boot_flag r.type
    let rest := addMany step.1 rs
    (rest.1, step.2 :: rest.2)

lemma numberFrom_append (xs ys : List PartSpec) (n : Nat) :
    numberFrom n (xs ++ ys) = numberFrom n xs ++ numberFrom (n + xs.length) ys := by
  induction xs generalizing n with
  | nil => simp [numberFrom]
  | cons x xs ih =>
    simp [numberFrom, ih, Nat.add_assoc, Nat.add_comm 1 xs.length]

lemma numberFrom_get? (l : List PartSpec) (n i : Nat) :
    (numberFrom n l).get? i = (l.get? i).map (fun p => (n + i, p)) := by
  induction l generalizing n i with
  | nil => simp [numberFrom]
  | cons x xs ih =>
    cases i with
    | zero => simp [numberFrom]
    | succ j =>
      simp only [numberFrom, List.get?_cons_succ]
      rw [ih]
      cases xs.get? j
      · simp
      · simp
        omega

lemma numberFrom_length (l : List PartSpec) (n : Nat) :
    (numberFrom n l).length = l.length := by
  induction l generalizing n with
  | nil => rfl
  | cons x xs ih => simp [numberFrom, ih]

lemma addMany_partitions (reqs : List PartSpec) (dp : DiskPartitioner) :
    (addMany dp reqs).1.partitions = dp.partitions ++ reqs := by
  induction reqs generalizing dp with
  | nil => simp [addMany]
  | cons r rs ih =>
    simp only [addMany, DiskPartitioner.add_partition]
    rw [ih]
    simp

lemma addMany_returns (reqs : List PartSpec) (dp : DiskPartitioner) :
    (addMany dp reqs).2 = List.range' (dp.partitions.length + 1) reqs.length := by
  induction reqs generalizing dp with
  | nil => simp [addMany]
  | cons r rs ih =>
    simp only [addMany, DiskPartitioner.add_partition]
    rw [ih]
    simp [List.range'_succ]

lemma range'_one_get? (s n i : Nat) (h : i < n) :
    (List.range' s n).get? i = some (s + i) := by
  induction n generalizing s i with
  | zero => omega
  | succ m ih =>
    cases i with
    | zero => simp [List.range'_succ]
    | succ j =>
      simp only [List.range'_succ, List.get?_cons_succ]
      rw [ih s.succ j (by omega)]
      simp
      omega

/-- C5: on a fresh planner, the i-th `add_partition` call returns number
`i + 1` (numbers dense 1..N in call order), and `get_partitions` returns
exactly the N `(number, spec)` pairs in insertion order, with the spec
fields exactly as passed (or defaulted). -/
theorem add_partition_sequential (dev label : String) (reqs : List PartSpec) :
    (addMany (DiskPartitioner.create dev label) reqs).2 =
      List.range' 1 reqs.length ∧
    (∀ i, i < reqs.length →
      ((addMany (DiskPartitioner.create dev label) reqs).2).get? i = some (i + 1)) ∧
    ((addMany (DiskPartitioner.create dev label) reqs).1.get_partitions).length
       = reqs.length ∧
    (∀ i r, reqs.get? i = some r →
      ((addMany (DiskPartitioner.create dev label) reqs).1.get_partitions).get? i
        = some (i + 1, r)) := by
  simp only [DiskPartitioner.create]
  have hp := addMany_partitions reqs (DiskPartitioner.create dev label)
  have hr := addMany_returns reqs (DiskPartitioner.create dev label)
  simp only [DiskPartitioner.create, List.nil_append, List.length_nil,
    Nat.zero_add] at hp hr
  refine ⟨hr, ?_, ?_, ?_⟩
  · intro i hi
    rw [hr, range'_one_get? 1 reqs.length i hi, Nat.add_comm]
  · simp only [DiskPartitioner.get_partitions]
    rw [hp, numberFrom_length]
  · intro i r hrq
    simp only [DiskPartitioner.get_partitions]
    rw [hp, numberFrom_get? reqs 1 i, hrq]
    simp [Nat.add_comm]

/-- Witness for C5 at a concrete call sequence (the one from
`test_add_partition`). -/
theorem add_partition_sequential_witness :
    (addMany (DiskPartitioner.create "/dev/fake" "msdos")
        [⟨1024, "", none, "primary"⟩, ⟨512, "linux-swap", none, "primary"⟩,
         ⟨2048, "", some "boot", "primary"⟩,
         ⟨2048, "", some "bios_grub", "primary"⟩]).2.get? 1 = some 2 ∧
    ((addMany (DiskPartitioner.create "/dev/fake" "msdos")
        [⟨1024, "", none, "primary"⟩, ⟨512, "linux-swap", none, "primary"⟩,
         ⟨2048, "", some "boot", "primary"⟩,
         ⟨2048, "", some "bios_grub", "primary"⟩]).1.get_partitions).get? 2
      = some (3, ⟨2048, "", some "boot", "primary"⟩) := by
  have h := add_partition_sequential "/dev/fake" "msdos"
    [⟨1024, "", none, "primary"⟩, ⟨512, "linux-swap", none, "primary"⟩,
     ⟨2048, "", some "boot", "primary"⟩, ⟨2048, "", some "bios_grub", "primary"⟩]
  exact ⟨h.2.1 1 (by decide), h.2.2.2 2 _ rfl⟩

/-! ## TableCommitter: `DiskPartitioner.commit` -/

/-- Outcome of a commit: success, or the terminal
`InstanceDeployFailure` raised when the retry budget is exhausted. -/
inductive CommitStatus where
  | ok
  | deployFailure
deriving Repr, DecidableEq

/-- Observable trace of one `commit()` call: the batched `parted`
invocations issued (argument lists after `parted -a optimal -s <dev> --
unit MiB`), the number of `fuser` probe calls, the number of 1-second
sleeps between probes, and the final status. -/
structure CommitTrace where
  execCalls : List (List String)
  probeCalls : Nat
  sleeps : Nat
  result : CommitStatus
deriving Repr, DecidableEq

/-- Modelled from the spec: the per-partition portion of the batched
`parted` command (spec §4.2 step 1): a `mkpart type fs-type start end`
operation, followed immediately by `set <num> <flag> on` when the
partition carries a boot flag.  The exact argument text is fixed by the
test suite (`test_commit`). -/
def mkpartArgs (num : Nat) (p : PartSpec) (start : Nat) : List String :=
  ["mkpart", p.type, p.fs_type, toString start, toString (start + p.size)] ++
    (match p.boot_flag with
     | some f => ["set", toString num, f, "on"]
     | none => [])

/-- Build the `mkpart`/`set` operations for the numbered partitions,
threading the running start offset: each partition starts where the
previous one ended (spec §4.2 step 1). -/
def commitArgsFrom : Nat → List (Nat × PartSpec) → List String
  | _, [] => []
  | start, (num, p) :: rest =>
    mkpartArgs num p start ++ commitArgsFrom (start + p.size) rest

/-- Modelled from the spec: the single batched partitioning-tool argument
list built by `commit()` (spec §4.2 steps 1–2): label creation followed
by the partition operations.  The first partition starts at the tool's
minimum alignment of 1 MiB, as fixed by the test suite (`test_commit`
expects boundaries 1–2, 2–3, 3–4 for three 1 MiB partitions). -/
def DiskPartitioner.commit_args (dp : DiskPartitioner) : List String :=
  "mklabel" :: dp.disk_label :: commitArgsFrom 1 dp.get_partitions

/-- Fixed retry bound of the post-commit busy-wait
(`check_device_max_retries`, spec §4.2 step 4). -/
def check_device_max_retries : Nat := 20

/-- Modelled from the spec: the bounded busy-wait loop of `commit()`
(spec §4.2 steps 3–4).  `probe i` is the `(stdout, stderr)` pair of the
i-th `fuser <device>` call (0-based): `(none, none)` means exit code 1
with no output — the device is not held — and anything else (holder PIDs
on stdout, or a diagnostic on stderr) keeps the loop retrying after a
1-second sleep, with no early exit for any failure kind.  Returns the
final status, the number of probe calls made, and the number of sleeps
taken. -/
def busyWait (probe : Nat → Option String × Option String)
    (made remaining sleeps : Nat) : CommitStatus × Nat × Nat :=
  match remaining with
  | 0 => (.deployFailure, made, sleeps)
  | r + 1 =>
    match probe made with
    | (none, none) => (.ok, made + 1, sleeps)
    | _ => busyWait probe (made + 1) r (sleeps + 1)

/-- Modelled from the spec: `commit()` issues the accumulated table as a
single batched tool invocation, then busy-waits on the device (spec
§4.2); exhausting the 20-probe budget raises `InstanceDeployFailure`. -/
def DiskPartitioner.commit (dp : DiskPartitioner)
    (probe : Nat → Option String × Option String) : CommitTrace :=
  let wait := busyWait probe 0 check_device_max_retries 0
  { execCalls := [dp.commit_args]
    probeCalls := wait.2.1
    sleeps := wait.2.2
    result := wait.1 }

/-- The planner state of claim C1: the four specs added, in order, on a
fresh `/dev/fake` planner. -/
def dpC1 : DiskPartitioner :=
  (addMany (DiskPartitioner.create "/dev/fake" "msdos")
    [⟨1024, "", none, "primary"⟩, ⟨512, "linux-swap", none, "primary"⟩,
     ⟨2048, "", some "boot", "primary"⟩,
     ⟨2048, "", some "bios_grub", "primary"⟩]).1

/-- Counterexample to C1 as stated: the batched invocation does *not*
carry the boundaries 0–1024, 1024–1536, 1536–3584, 3584–5632; the first
partition does not start at offset 0 (the tool lead-in puts it at
1 MiB, as the repository's own `test_commit` fixes). -/
theorem commit_boundaries_not_zero_based :
    dpC1.commit_args ≠
      ["mklabel", "msdos",
       "mkpart", "primary", "", "0", "1024",
       "mkpart", "primary", "linux-swap", "1024", "1536",
       "mkpart", "primary", "", "1536", "3584", "set", "3", "boot", "on",
       "mkpart", "primary", "", "3584", "5632",
       "set", "4", "bios_grub", "on"] := by
  decide

/-- C1 (amended): committing the C1 table issues exactly one batched
invocation containing, in order, label creation and four
partition-create operations whose MiB boundaries are 1–1025, 1025–1537,
1537–3585 and 3585–5633 — each partition starting where the previous one
ended, the first at the 1 MiB alignment offset — with a boot-flag-set
operation for partition 3 (`boot`) and one for partition 4
(`bios_grub`). -/
theorem commit_single_batched_invocation
    (probe : Nat → Option String × Option String) :
    (dpC1.commit probe).execCalls =
      [["mklabel", "msdos",
        "mkpart", "primary", "", "1", "1025",
        "mkpart", "primary", "linux-swap", "1025", "1537",
        "mkpart", "primary", "", "1537", "3585", "set", "3", "boot", "on",
        "mkpart", "primary", "", "3585", "5633",
        "set", "4", "bios_grub", "on"]] := by
  have h : dpC1.commit_args =
      ["mklabel", "msdos",
       "mkpart", "primary", "", "1", "1025",
       "mkpart", "primary", "linux-swap", "1025", "1537",
       "mkpart", "primary", "", "1537", "3585", "set", "3", "boot", "on",
       "mkpart", "primary", "", "3585", "5633",
       "set", "4", "bios_grub", "on"] := by decide
  simp [DiskPartitioner.commit, h]

lemma busyWait_all_busy (probe : Nat → Option String × Option String)
    (r made s : Nat)
    (h : ∀ i, made ≤ i → i < made + r → probe i ≠ (none, none)) :
    busyWait probe made r s = (.deployFailure, made + r, s + r) := by
  induction r generalizing made s with
  | zero => simp [busyWait]
  | succ m ih =>
    have hbusy : probe made ≠ (none, none) := h made le_rfl (by omega)
    unfold busyWait
    have hrec := ih (made + 1) (s + 1) (fun i hi hi2 => h i (by omega) (by omega))
    rcases hpm : probe made with ⟨o, e⟩
    cases o with
    | none =>
      cases e with
      | none => exact absurd hpm hbusy
      | some v => simpa [hrec] using by omega
    | some v =>
      cases e <;> simpa [hrec] using by omega

/-- C2: whenever the busy-probe never reports "not held" within the
20-attempt retry budget — whether it keeps reporting holder PIDs on
stdout, keeps reporting a disconnected-device diagnostic on stderr, or
any mix — `commit` makes exactly 20 probe calls and then fails with the
terminal `InstanceDeployFailure`; there is no early exit for the
disconnected case. -/
theorem commit_always_busy_twenty_probes (dp : DiskPartitioner)
    (probe : Nat → Option String × Option String)
    (h : ∀ i, i < 20 → probe i ≠ (none, none)) :
    (dp.commit probe).result = .deployFailure ∧
    (dp.commit probe).probeCalls = 20 := by
  have hw := busyWait_all_busy probe 20 0 0 (fun i _ hi => h i (by omega))
  simp [DiskPartitioner.commit, check_device_max_retries, hw]

/-- Witness for C2: a probe that always reports holder PIDs (the
`test_commit_with_device_is_always_busy` scenario). -/
theorem commit_always_busy_twenty_probes_witness :
    ((DiskPartitioner.create "/dev/fake" "msdos").commit
        (fun _ => (some "/dev/fake: 10000 10001", none))).result
      = .deployFailure ∧
    ((DiskPartitioner.create "/dev/fake" "msdos").commit
        (fun _ => (some "/dev/fake: 10000 10001", none))).probeCalls = 20 :=
  commit_always_busy_twenty_probes _ _ (fun i _ => by simp)

/-- C3: if the busy-probe reports "held" on the first call and "not
held" on the second, `commit` succeeds after exactly 2 probe calls with
exactly one 1-second sleep between them, and the partitioning-tool
invocation is still issued exactly once. -/
theorem commit_busy_once_two_probes (dp : DiskPartitioner)
    (probe : Nat → Option String × Option String)
    (h0 : probe 0 ≠ (none, none)) (h1 : probe 1 = (none, none)) :
    (dp.commit probe).result = .ok ∧
    (dp.commit probe).probeCalls = 2 ∧
    (dp.commit probe).sleeps = 1 ∧
    (dp.commit probe).execCalls = [dp.commit_args] := by
  have hw : busyWait probe 0 check_device_max_retries 0 = (.ok, 2, 1) := by
    unfold busyWait check_device_max_retries
    rcases hp0 : probe 0 with ⟨o, e⟩
    cases o with
    | none =>
      cases e with
      | none => exact absurd hp0 h0
      | some v => simp [busyWait, h1]
    | some v => cases e <;> simp [busyWait, h1]
  simp [DiskPartitioner.commit, hw]

/-- Witness for C3: the probe trace of
`test_commit_with_device_is_busy_once` — holder PIDs once, then free. -/
theorem commit_busy_once_two_probes_witness :
    ((DiskPartitioner.create "/dev/fake" "msdos").commit
        (fun i => if i = 0 then (some "/dev/fake: 10000 10001", none)
                  else (none, none))).result = .ok ∧
    ((DiskPartitioner.create "/dev/fake" "msdos").commit
        (fun i => if i = 0 then (some "/dev/fake: 10000 10001", none)
                  else (none, none))).probeCalls = 2 ∧
    ((DiskPartitioner.create "/dev/fake" "msdos").commit
        (fun i => if i = 0 then (some "/dev/fake: 10000 10001", none)
                  else (none, none))).sleeps = 1 ∧
    ((DiskPartitioner.create "/dev/fake" "msdos").commit
        (fun i => if i = 0 then (some "/dev/fake: 10000 10001", none)
                  else (none, none))).execCalls
      = [(DiskPartitioner.create "/dev/fake" "msdos").commit_args] :=
  commit_busy_once_two_probes _ _ (by simp) (by simp)

/-! ## DiskProvisioner: `disk_utils.make_partitions` -/

/-- `CONF.disk_utils.efi_system_partition_size` default (disk_utils.py
option registration). -/
def efi_system_partition_size : Nat := 200

/-- The `part_dict` built by `make_partitions`: the partition number
assigned to each requested role (`none` = not requested).  The source
stores the device path `dev + '-part%d' % num`; the number is the
varying part. -/
structure PartDict where
  efi : Option Nat
  ephemeral : Option Nat
  swap : Option Nat
  configdrive : Option Nat
  root : Nat
deriving Repr, DecidableEq

/-- Embeds `disk_utils.make_partitions` (the table-building part; the
source optionally commits the same planner afterwards, which is modelled
separately by `DiskPartitioner.commit`).  For UEFI local boot the planner
is created with a GPT label and the EFI system partition is added first,
bootable, with fs type `fat32`; then ephemeral, swap and configdrive are
added when their sizes are nonzero (Python truthiness), and root is
added last, bootable exactly when `boot_option == "local" and boot_mode
== "bios"`.  The source passes the planner a boolean `bootable=`;
following the spec's planner contract (§3, §4.1) a bootable partition is
recorded with boot flag `"boot"`. -/
def make_partitions (dev : String) (root_mb swap_mb ephemeral_mb : Nat)
    (configdrive_mb : Nat) (boot_option boot_mode : String) :
    DiskPartitioner × PartDict :=
  let step0 : DiskPartitioner × Option Nat :=
    if boot_mode = "uefi" ∧ boot_option = "local" then
      let s := (DiskPartitioner.create dev "gpt").add_partition
        efi_system_partition_size "fat32" (some "boot") "primary"
      (s.1, some s.2)
    else
      (DiskPartitioner.create dev "msdos", none)
  let step1 : DiskPartitioner × Option Nat :=
    if ephemeral_mb ≠ 0 then
      let s := step0.1.add_partition ephemeral_mb "" none "primary"
      (s.1, some s.2)
    else (step0.1, none)
  let step2 : DiskPartitioner × Option Nat :=
    if swap_mb ≠ 0 then
      let s := step1.1.add_partition swap_mb "linux-swap" none "primary"
      (s.1, some s.2)
    else (step1.1, none)
  let step3 : DiskPartitioner × Option Nat :=
    if configdrive_mb ≠ 0 then
      let s := step2.1.add_partition configdrive_mb "" none "primary"
      (s.1, some s.2)
    else (step2.1, none)
  let rootStep := step3.1.add_partition root_mb ""
    (if boot_option = "local" ∧ boot_mode = "bios" then some "boot" else none)
    "primary"
  (rootStep.1,
   { efi := step0.2, ephemeral := step1.2, swap := step2.2,
     configdrive := step3.2, root := rootStep.2 })

/-- C4: for every combination of requested optional partitions and every
boot mode/option pair, the root partition is the last entry of the
table: its number equals the table length and strictly exceeds the
number of every other partition in the plan. -/
theorem make_partitions_root_last (dev : String)
    (root_mb swap_mb ephemeral_mb configdrive_mb : Nat)
    (boot_option boot_mode : String) :
    (make_partitions dev root_mb swap_mb ephemeral_mb configdrive_mb
        boot_option boot_mode).2.root =
      (make_partitions dev root_mb swap_mb ephemeral_mb configdrive_mb
        boot_option boot_mode).1.partitions.length ∧
    (∀ n, (make_partitions dev root_mb swap_mb ephemeral_mb configdrive_mb
        boot_option boot_mode).2.efi = some n →
      n < (make_partitions dev root_mb swap_mb ephemeral_mb configdrive_mb
        boot_option boot_mode).2.root) ∧
    (∀ n, (make_partitions dev root_mb swap_mb ephemeral_mb configdrive_mb
        boot_option boot_mode).2.ephemeral = some n →
      n < (make_partitions dev root_mb swap_mb ephemeral_mb configdrive_mb
        boot_option boot_mode).2.root) ∧
    (∀ n, (make_partitions dev root_mb swap_mb ephemeral_mb configdrive_mb
        boot_option boot_mode).2.swap = some n →
      n < (make_partitions dev root_mb swap_mb ephemeral_mb configdrive_mb
        boot_option boot_mode).2.root) ∧
    (∀ n, (make_partitions dev root_mb swap_mb ephemeral_mb configdrive_mb
        boot_option boot_mode).2.configdrive = some n →
      n < (make_partitions dev root_mb swap_mb ephemeral_mb configdrive_mb
        boot_option boot_mode).2.root) := by
  by_cases hu : boot_mode = "uefi" ∧ boot_option = "local" <;>
  by_cases he : ephemeral_mb ≠ 0 <;>
  by_cases hs : swap_mb ≠ 0 <;>
  by_cases hc : configdrive_mb ≠ 0 <;>
  simp [make_partitions, DiskPartitioner.add_partition,
    DiskPartitioner.create, hu, he, hs, hc]

/-- Witness for C4: all four optional partitions requested under UEFI
local boot; root is partition 5, strictly after EFI (1), ephemeral (2),
swap (3) and configdrive (4). -/
theorem make_partitions_root_last_witness :
    (make_partitions "/dev/fake" 100 200 300 64 "local" "uefi").2.root = 5 ∧
    (make_partitions "/dev/fake" 100 200 300 64 "local" "uefi").2.efi
      = some 1 ∧ 1 < 5 ∧
    (make_partitions "/dev/fake" 100 200 300 64 "local" "uefi").2.configdrive
      = some 4 ∧ 4 < 5 := by
  have h := make_partitions_root_last "/dev/fake" 100 200 300 64 "local" "uefi"
  exact ⟨by decide, by decide, h.2.1 1 (by decide) |>.trans_eq (by decide),
    by decide, h.2.2.2.2 4 (by decide) |>.trans_eq (by decide)⟩

/-- C6: in the table built by `make_partitions`, the last (root)
partition carries the boot flag `"boot"` iff `boot_option = "local"` and
`boot_mode = "bios"`.  Under UEFI local boot the root partition carries
no boot flag; instead the EFI system partition is added first (number
1), with fs type `fat32` and the boot flag, under a GPT label.  In
netboot mode the root partition carries no boot flag. -/
theorem make_partitions_root_boot_flag (dev : String)
    (root_mb swap_mb ephemeral_mb configdrive_mb : Nat)
    (boot_option boot_mode : String) :
    ((∃ p, (make_partitions dev root_mb swap_mb ephemeral_mb configdrive_mb
        boot_option boot_mode).1.partitions.getLast? = some p ∧
        p.boot_flag = some "boot") ↔
      (boot_option = "local" ∧ boot_mode = "bios")) ∧
    (boot_mode = "uefi" ∧ boot_option = "local" →
      (∀ p, (make_partitions dev root_mb swap_mb ephemeral_mb configdrive_mb
          boot_option boot_mode).1.partitions.getLast? = some p →
        p.boot_flag = none) ∧
      (make_partitions dev root_mb swap_mb ephemeral_mb configdrive_mb
          boot_option boot_mode).2.efi = some 1 ∧
      (make_partitions dev root_mb swap_mb ephemeral_mb configdrive_mb
          boot_option boot_mode).1.disk_label = "gpt" ∧
      (make_partitions dev root_mb swap_mb ephemeral_mb configdrive_mb
          boot_option boot_mode).1.partitions.head? =
        some ⟨efi_system_partition_size, "fat32", some "boot", "primary"⟩) ∧
    (boot_option = "netboot" →
      ∀ p, (make_partitions dev root_mb swap_mb ephemeral_mb configdrive_mb
          boot_option boot_mode).1.partitions.getLast? = some p →
        p.boot_flag = none) := by
  by_cases hu : boot_mode = "uefi" ∧ boot_option = "local" <;>
  by_cases hb : boot_option = "local" ∧ boot_mode = "bios" <;>
  by_cases he : ephemeral_mb ≠ 0 <;>
  by_cases hs : swap_mb ≠ 0 <;>
  by_cases hc : configdrive_mb ≠ 0 <;>
  simp_all [make_partitions, DiskPartitioner.add_partition,
    DiskPartitioner.create]

/-- Witness for C6 at the UEFI local-boot configuration: root (last)
carries no boot flag, the EFI partition is number 1. -/
theorem make_partitions_root_boot_flag_witness :
    ((make_partitions "/dev/fake" 100 0 0 0 "local" "uefi").2.efi
        = some 1) ∧
    (∀ p, (make_partitions "/dev/fake" 100 0 0 0 "local"
        "uefi").1.partitions.getLast? = some p → p.boot_flag = none) := by
  have h := make_partitions_root_boot_flag "/dev/fake" 100 0 0 0
    "local" "uefi"
  have h2 := h.2.1 ⟨rfl, rfl⟩
  exact ⟨h2.2.1, h2.1⟩

/-! ## `_get_configdrive` size computation -/

/-- `oslo_utils.units.Mi` = 2^20. -/
def units_Mi : Nat := 1048576

/-- Fuel-driven bit length: `bitlenAux fuel n` is the number of binary
digits of `n`, provided `n ≤ fuel`. -/
def bitlenAux : Nat → Nat → Nat
  | 0, _ => 0
  | fuel + 1, n => if n = 0 then 0 else bitlenAux fuel (n / 2) + 1

/-- Number of binary digits of `n` (`0` for `0`): the exponent CPython's
float conversion works from. -/
def bitlen (n : Nat) : Nat := bitlenAux n n

/-- Round `n` to the nearest multiple of `2 ^ k`, ties to even — the
IEEE-754 round-to-nearest-even rule at granularity `2 ^ k`. -/
def roundNearestEven (n k : Nat) : Nat :=
  if k = 0 then n
  else
    let q := n / 2 ^ k
    let r := n % 2 ^ k
    let half := 2 ^ (k - 1)
    if r < half then q * 2 ^ k
    else if half < r then (q + 1) * 2 ^ k
    else if q % 2 = 0 then q * 2 ^ k else (q + 1) * 2 ^ k

/-- The value of CPython's `float(n)` for a natural number: `n` itself
when it fits in the 53-bit significand, otherwise `n` rounded to the
nearest multiple of `2 ^ (bitlen n - 53)` with ties to even (the
spacing of representable doubles in `[2 ^ (bitlen n - 1), 2 ^ bitlen n)`).
Conversion overflow — rounded values of at least `2 ^ 1024`, where
CPython raises `OverflowError` — lies far beyond every input any theorem
below touches and is not modelled. -/
def float_of_nat (n : Nat) : Nat :=
  if bitlen n ≤ 53 then n else roundNearestEven n (bitlen n - 53)

/-- Embeds the configdrive partition-size computation of
`_get_configdrive`: `int(math.ceil(float(bytes_) / units.Mi))`.  The
byte count first passes through CPython's `float()` conversion
(`float_of_nat`); from there on exact rational arithmetic is faithful,
because dividing a double by the constant 2^20 only shifts its exponent
(no underflow occurs at these magnitudes) and `math.ceil` and `int` are
exact on doubles. -/
def configdrive_size_mb (bytes_ : Nat) : Nat :=
  (⌈(float_of_nat bytes_ : ℚ) / (units_Mi : ℚ)⌉).toNat

lemma bitlenAux_le_of_lt (fuel n k : Nat) (hfuel : n ≤ fuel)
    (h : n < 2 ^ k) : bitlenAux fuel n ≤ k := by
  induction fuel generalizing n k with
  | zero => simp [bitlenAux]
  | succ f ih =>
    by_cases hn : n = 0
    · simp [bitlenAux, hn]
    · rw [bitlenAux, if_neg hn]
      have hk : k ≠ 0 := by
        rintro rfl
        rw [pow_zero] at h
        omega
      obtain ⟨j, rfl⟩ : ∃ j, k = j + 1 := ⟨k - 1, by omega⟩
      have hdiv : n / 2 < 2 ^ j := by
        rw [Nat.div_lt_iff_lt_mul (by norm_num)]
        calc n < 2 ^ (j + 1) := h
        _ = 2 ^ j * 2 := by rw [pow_succ]
      have hfuel2 : n / 2 ≤ f := by omega
      have := ih (n / 2) j hfuel2 hdiv
      omega

lemma lt_bitlenAux_of_le (fuel n k : Nat) (hfuel : n ≤ fuel)
    (h : 2 ^ k ≤ n) : k < bitlenAux fuel n := by
  induction fuel generalizing n k with
  | zero =>
    have h2k : 0 < 2 ^ k := pow_pos (by norm_num) k
    omega
  | succ f ih =>
    have h2k : 0 < 2 ^ k := pow_pos (by norm_num) k
    have hn : n ≠ 0 := by omega
    rw [bitlenAux, if_neg hn]
    cases k with
    | zero => omega
    | succ j =>
      have hdiv : 2 ^ j ≤ n / 2 := by
        rw [Nat.le_div_iff_mul_le (by norm_num)]
        calc 2 ^ j * 2 = 2 ^ (j + 1) := by rw [pow_succ]
        _ ≤ n := h
      have hfuel2 : n / 2 ≤ f := by omega
      have := ih (n / 2) j hfuel2 hdiv
      omega

lemma bitlen_le_of_lt {n k : Nat} (h : n < 2 ^ k) : bitlen n ≤ k :=
  bitlenAux_le_of_lt n n k le_rfl h

lemma lt_bitlen_of_le {n k : Nat} (h : 2 ^ k ≤ n) : k < bitlen n :=
  lt_bitlenAux_of_le n n k le_rfl h

/-- Every byte count of at most `2 ^ 53` is exactly representable as an
IEEE double: CPython's `float()` conversion is the identity there. -/
lemma float_of_nat_exact (n : Nat) (hn : n ≤ 2 ^ 53) :
    float_of_nat n = n := by
  rcases Nat.lt_or_ge n (2 ^ 53) with h | h
  · rw [float_of_nat, if_pos (bitlen_le_of_lt h)]
  · have hn53 : n = 2 ^ 53 := by omega
    subst hn53
    have hb : bitlen (2 ^ 53) = 54 := by
      have h1 : bitlen (2 ^ 53) ≤ 54 := bitlen_le_of_lt (by norm_num)
      have h2 : 53 < bitlen (2 ^ 53) := lt_bitlen_of_le le_rfl
      omega
    rw [float_of_nat, hb]
    norm_num [roundNearestEven]

/-- `float(2 ** 53 + 1)` rounds down to `2 ** 53`: the trailing 1 is a
tie at the 53-bit significand boundary and the even neighbour wins. -/
lemma float_of_nat_boundary : float_of_nat (2 ^ 53 + 1) = 2 ^ 53 := by
  have hb : bitlen (2 ^ 53 + 1) = 54 := by
    have h1 : bitlen (2 ^ 53 + 1) ≤ 54 := bitlen_le_of_lt (by norm_num)
    have h2 : 53 < bitlen (2 ^ 53 + 1) := lt_bitlen_of_le (by norm_num)
    omega
  rw [float_of_nat, hb]
  norm_num [roundNearestEven]

lemma nat_sandwich (X nn mm : Nat) (_hmm : 0 < mm) (ha : X ≤ nn + mm - 1)
    (hb : nn + mm - 1 < X + mm) : nn ≤ X ∧ X < nn + mm := by omega

lemma nat_shift (X nn mm : Nat) (h : nn ≤ X) :
    nn + mm - 1 ≤ mm - 1 + X := by omega

lemma rat_ceil_nat_div (n m : Nat) (hm : 0 < m) :
    ⌈(n : ℚ) / (m : ℚ)⌉ = (((n + m - 1) / m : ℕ) : ℤ) := by
  have hmQ : (0 : ℚ) < (m : ℚ) := by exact_mod_cast hm
  set q : Nat := (n + m - 1) / m with hq
  have h1 : q * m ≤ n + m - 1 := Nat.div_mul_le_self _ _
  have h2 : n + m - 1 < q * m + m := by rw [hq]; exact Nat.lt_div_mul_add hm
  obtain ⟨hle, hlt⟩ := nat_sandwich (q * m) n m hm h1 h2
  rw [Int.ceil_eq_iff]
  constructor
  · push_cast
    rw [lt_div_iff₀ hmQ]
    have hcast : (q : ℚ) * m < (n : ℚ) + m := by exact_mod_cast hlt
    linarith
  · rw [div_le_iff₀ hmQ]
    push_cast
    exact_mod_cast hle

/-- Counterexample to C7 as stated: the rounding-up identity does not
hold for *every* non-negative payload size.  At 2^53 + 1 bytes the
`float()` conversion in `_get_configdrive` rounds the byte count down
to 2^53 before the division, so the code yields 2^33 MiB while the
exact ceiling of `bytes / 2^20` is 2^33 + 1. -/
theorem configdrive_size_not_exact_ceil :
    configdrive_size_mb (2 ^ 53 + 1) = 2 ^ 33 ∧
    ⌈((2 ^ 53 + 1 : ℕ) : ℚ) / (units_Mi : ℚ)⌉ = (2 ^ 33 + 1 : ℤ) ∧
    configdrive_size_mb (2 ^ 53 + 1) ≠
      (⌈((2 ^ 53 + 1 : ℕ) : ℚ) / (units_Mi : ℚ)⌉).toNat := by
  have hm : 0 < units_Mi := by norm_num [units_Mi]
  have h1 : configdrive_size_mb (2 ^ 53 + 1) = 2 ^ 33 := by
    rw [configdrive_size_mb, float_of_nat_boundary,
      rat_ceil_nat_div (2 ^ 53) units_Mi hm, Int.toNat_natCast]
    norm_num [units_Mi]
  have h2 : ⌈((2 ^ 53 + 1 : ℕ) : ℚ) / (units_Mi : ℚ)⌉ = (2 ^ 33 + 1 : ℤ) := by
    rw [rat_ceil_nat_div (2 ^ 53 + 1) units_Mi hm]
    norm_num [units_Mi]
  refine ⟨h1, h2, ?_⟩
  rw [h1, h2]
  decide

/-- C7 (amended): for every payload whose byte count is exactly
representable in an IEEE double — in particular every payload of at
most 2^53 bytes — the computed configdrive size is the decompressed
byte count rounded up to whole MiB: it equals
`(bytes + 2^20 - 1) / 2^20`, which covers the payload and is the least
MiB count that does; a 1-byte payload yields 1 MiB, a 2^20-byte payload
yields 1 MiB, and a 2^20+1-byte payload yields 2 MiB.  Beyond 2^53
bytes the `float()` conversion rounds the byte count first and the
exact-ceiling identity can fail. -/
theorem configdrive_size_ceil_representable :
    (∀ n : Nat, n ≤ 2 ^ 53 →
      configdrive_size_mb n = (n + units_Mi - 1) / units_Mi ∧
      n ≤ configdrive_size_mb n * units_Mi ∧
      (∀ k, n ≤ k * units_Mi → configdrive_size_mb n ≤ k)) ∧
    configdrive_size_mb 1 = 1 ∧ configdrive_size_mb 1048576 = 1 ∧
    configdrive_size_mb 1048577 = 2 := by
  have hm : 0 < units_Mi := by norm_num [units_Mi]
  have main : ∀ n : Nat, n ≤ 2 ^ 53 →
      configdrive_size_mb n = (n + units_Mi - 1) / units_Mi := by
    intro n hn
    rw [configdrive_size_mb, float_of_nat_exact n hn,
      rat_ceil_nat_div n units_Mi hm, Int.toNat_natCast]
  refine ⟨fun n hn => ⟨main n hn, ?_, ?_⟩, ?_, ?_, ?_⟩
  · rw [main n hn]
    have h1 : ((n + units_Mi - 1) / units_Mi) * units_Mi ≤ n + units_Mi - 1 :=
      Nat.div_mul_le_self _ _
    have h2 : n + units_Mi - 1 <
        ((n + units_Mi - 1) / units_Mi) * units_Mi + units_Mi :=
      Nat.lt_div_mul_add hm
    exact (nat_sandwich _ n units_Mi hm h1 h2).1
  · intro k hk
    rw [main n hn]
    have hmono := Nat.div_le_div_right (c := units_Mi)
      (nat_shift (k * units_Mi) n units_Mi hk)
    rw [Nat.add_mul_div_right _ _ hm] at hmono
    have h0 : (units_Mi - 1) / units_Mi = 0 := Nat.div_eq_of_lt (by omega)
    rw [h0, Nat.zero_add] at hmono
    exact hmono
  · rw [main 1 (by norm_num)]; norm_num [units_Mi]
  · rw [main 1048576 (by norm_num)]; norm_num [units_Mi]
  · rw [main 1048577 (by norm_num)]; norm_num [units_Mi]

/-- Witness for the amended C7: the per-payload clause applied at the
1-byte payload — the ceiling-formula equality and minimality at k = 1. -/
theorem configdrive_size_ceil_representable_witness :
    configdrive_size_mb 1 = (1 + units_Mi - 1) / units_Mi ∧
    configdrive_size_mb 1 ≤ 1 :=
  ⟨(configdrive_size_ceil_representable.1 1 (by norm_num)).1,
   (configdrive_size_ceil_representable.1 1 (by norm_num)).2.2 1
     (by norm_num [units_Mi])⟩

/-! ## `disk_utils.is_block_device` -/

/-- `CONF.disk_utils.iscsi_verify_attempts` default (disk_utils.py
option registration): maximum stat attempts, sleeping 1 second between
attempts. -/
def iscsi_verify_attempts : Nat := 3

/-- Embeds the retry loop of `is_block_device`.  `statf i` is the
outcome of the i-th `os.stat(dev)` call (0-based): `.error ()` is an
`OSError`, `.ok b` a successful stat with `b = S_ISBLK(st_mode)`.  The
loop returns on the first successful stat; each failed attempt is
followed by a 1-second sleep; exhausting all attempts raises the
terminal `InstanceDeployFailure` (modelled as `.error ()` in the first
component).  Returns (result, stat calls made, sleeps taken). -/
def is_block_device_go (statf : Nat → Except Unit Bool)
    (made remaining sleeps : Nat) : Except Unit Bool × Nat × Nat :=
  match remaining with
  | 0 => (.error (), made, sleeps)
  | r + 1 =>
    match statf made with
    | .error () => is_block_device_go statf (made + 1) r (sleeps + 1)
    | .ok b => (.ok b, made + 1, sleeps)

/-- Embeds `is_block_device(dev)` with the configured number of
attempts. -/
def is_block_device (statf : Nat → Except Unit Bool) (attempts : Nat) :
    Except Unit Bool × Nat × Nat :=
  is_block_device_go statf 0 attempts 0

lemma is_block_device_go_all_fail (statf : Nat → Except Unit Bool)
    (r made s : Nat)
    (h : ∀ i, made ≤ i → i < made + r → statf i = .error ()) :
    is_block_device_go statf made r s = (.error (), made + r, s + r) := by
  induction r generalizing made s with
  | zero => simp [is_block_device_go]
  | succ m ih =>
    have h0 : statf made = .error () := h made le_rfl (by omega)
    rw [is_block_device_go, h0]
    rw [ih (made + 1) (s + 1) (fun i hi hi2 => h i (by omega) (by omega))]
    simp only [Prod.mk.injEq]
    exact ⟨trivial, by omega, by omega⟩

lemma is_block_device_go_first_ok (statf : Nat → Except Unit Bool)
    (r made s i : Nat) (b : Bool) (hi : i < r)
    (hfail : ∀ j, made ≤ j → j < made + i → statf j = .error ())
    (hok : statf (made + i) = .ok b) :
    is_block_device_go statf made r s = (.ok b, made + i + 1, s + i) := by
  induction i generalizing made r s with
  | zero =>
    obtain ⟨rr, rfl⟩ : ∃ rr, r = rr + 1 := ⟨r - 1, by omega⟩
    rw [is_block_device_go]
    simp only [Nat.add_zero] at hok
    rw [hok]
    simp
  | succ j ih =>
    obtain ⟨rr, rfl⟩ : ∃ rr, r = rr + 1 := ⟨r - 1, by omega⟩
    have h0 : statf made = .error () := hfail made le_rfl (by omega)
    rw [is_block_device_go, h0]
    have := ih rr (made + 1) (s + 1) (by omega)
      (fun k hk hk2 => hfail k (by omega) (by omega))
      (by rw [show made + 1 + j = made + (j + 1) by omega]; exact hok)
    rw [this]
    simp only [Prod.mk.injEq]
    exact ⟨trivial, by omega, by omega⟩

/-- C10: `is_block_device` raises the terminal `InstanceDeployFailure`
iff every one of the configured stat attempts fails (the default
configuration makes 3 attempts, with a 1-second sleep after each
failure); conversely the first successful stat ends the loop
immediately — after `i` failures a success on attempt `i` returns
`S_ISBLK` with exactly `i + 1` stat calls and `i` sleeps, so a path that
exists but is not a block special file returns `False` on the first
attempt, with no retry and no error. -/
theorem is_block_device_retry_contract (statf : Nat → Except Unit Bool)
    (attempts : Nat) :
    iscsi_verify_attempts = 3 ∧
    ((is_block_device statf attempts).1 = .error () ↔
      ∀ i, i < attempts → statf i = .error ()) ∧
    (∀ i b, i < attempts → (∀ j, j < i → statf j = .error ()) →
      statf i = .ok b →
      is_block_device statf attempts = (.ok b, i + 1, i)) := by
  refine ⟨rfl, ?_, ?_⟩
  · constructor
    · intro herr i hi
      by_contra hne
      classical
      have hex : ∃ k, statf k ≠ .error () := ⟨i, hne⟩
      have hi0 : statf (Nat.find hex) ≠ .error () := Nat.find_spec hex
      have hle : Nat.find hex ≤ i := Nat.find_min' hex hne
      have hfail : ∀ j, j < Nat.find hex → statf j = .error () := by
        intro j hj
        by_contra hj2
        exact absurd (Nat.find_min' hex hj2) (by omega)
      obtain ⟨b, hok⟩ : ∃ b, statf (Nat.find hex) = .ok b := by
        rcases hs : statf (Nat.find hex) with e | b
        · cases e
          exact absurd hs hi0
        · exact ⟨b, rfl⟩
      have hfirst := is_block_device_go_first_ok statf attempts 0 0
        (Nat.find hex) b (by omega) (fun j _ hj => hfail j (by omega))
        (by simpa using hok)
      rw [show is_block_device statf attempts
          = is_block_device_go statf 0 attempts 0 from rfl, hfirst] at herr
      simp at herr
    · intro hall
      have hgo := is_block_device_go_all_fail statf attempts 0 0
        (fun i _ hi => hall i (by omega))
      rw [show is_block_device statf attempts
          = is_block_device_go statf 0 attempts 0 from rfl, hgo]
  · intro i b hi hfail hok
    have hfirst := is_block_device_go_first_ok statf attempts 0 0 i b hi
      (fun j _ hj => hfail j (by omega)) (by simpa using hok)
    rw [show is_block_device statf attempts
        = is_block_device_go statf 0 attempts 0 from rfl, hfirst]
    simp

/-- Witness for C10: a path that stats fine on the first attempt but is
not a block device returns `False` immediately (1 stat call, 0
sleeps). -/
theorem is_block_device_retry_contract_witness :
    is_block_device (fun _ => .ok false) 3 = (.ok false, 1, 0) :=
  (is_block_device_retry_contract (fun _ => .ok false) 3).2.2 0 false
    (by decide) (fun j hj => absurd hj (by omega)) rfl

/-! ## `work_on_disk` UUID resolution (disk_utils.py lines 505–519) -/

/-- Embeds the final stage of `work_on_disk`: `uuids_to_return` is
populated with the root partition device and the EFI system partition
device (if any); for each entry whose device exists the filesystem UUID
is resolved with `block_uuid` (`blkid`), and a `ProcessExecutionError`
from any resolution aborts the whole call (re-raised after logging).
`block_uuid dev = .error ()` models the `ProcessExecutionError`.
Returns the pair (resolved `root uuid`, resolved
`efi system partition uuid`). -/
def resolve_uuids (block_uuid : String → Except Unit String)
    (root_part : String) (efi_part : Option String) :
    Except Unit (Option String × Option String) :=
  match block_uuid root_part with
  | .error e => .error e
  | .ok ru =>
    match efi_part with
    | none => .ok (some ru, none)
    | some p =>
      match block_uuid p with
      | .error e => .error e
      | .ok eu => .ok (some ru, some eu)

/-- C9: the UUID-resolution stage of `work_on_disk` resolves the UUID of
every role whose partition exists (root always; the EFI system partition
when present), and a resolution failure for any one partition aborts the
whole call (no partial success): the stage fails iff resolving the root
partition fails or an existing EFI partition's resolution fails.  In a
successful result the root value is the resolved root UUID and the EFI
value is `none` iff the EFI partition was not requested — a `none` never
stands for a silently-failed resolution. -/
theorem resolve_uuids_no_partial_success
    (block_uuid : String → Except Unit String) (root_part : String)
    (efi_part : Option String) :
    ((resolve_uuids block_uuid root_part efi_part = .error ()) ↔
      (block_uuid root_part = .error () ∨
       ∃ p, efi_part = some p ∧ block_uuid p = .error ())) ∧
    (∀ ru eu, resolve_uuids block_uuid root_part efi_part = .ok (ru, eu) →
      (∃ u, block_uuid root_part = .ok u ∧ ru = some u) ∧
      (eu = none ↔ efi_part = none) ∧
      (∀ u, eu = some u → ∃ p, efi_part = some p ∧ block_uuid p = .ok u)) := by
  rcases hroot : block_uuid root_part with e | ru0
  · cases e
    refine ⟨by simp [resolve_uuids, hroot], ?_⟩
    intro ru eu h
    simp [resolve_uuids, hroot] at h
  · cases efi_part with
    | none =>
      refine ⟨by simp [resolve_uuids, hroot], ?_⟩
      intro ru eu h
      simp only [resolve_uuids, hroot, Except.ok.injEq, Prod.mk.injEq] at h
      obtain ⟨h1, h2⟩ := h
      subst h1
      subst h2
      exact ⟨⟨ru0, rfl, rfl⟩, by simp, by simp⟩
    | some p =>
      rcases hefi : block_uuid p with e | eu0
      · cases e
        refine ⟨by simp [resolve_uuids, hroot, hefi], ?_⟩
        intro ru eu h
        simp [resolve_uuids, hroot, hefi] at h
      · refine ⟨by simp [resolve_uuids, hroot, hefi], ?_⟩
        intro ru eu h
        simp only [resolve_uuids, hroot, hefi, Except.ok.injEq,
          Prod.mk.injEq] at h
        obtain ⟨h1, h2⟩ := h
        subst h1
        subst h2
        refine ⟨⟨ru0, rfl, rfl⟩, by simp, fun u hu => ⟨p, rfl, ?_⟩⟩
        cases hu
        exact hefi

/-- Witness for C9: root resolves to a UUID, the EFI partition exists
but its resolution fails — the whole stage fails. -/
theorem resolve_uuids_no_partial_success_witness :
    resolve_uuids
      (fun d => if d = "/dev/fake-part5" then .ok "abcd-1234" else .error ())
      "/dev/fake-part5" (some "/dev/fake-part1") = .error () :=
  (resolve_uuids_no_partial_success
      (fun d => if d = "/dev/fake-part5" then .ok "abcd-1234" else .error ())
      "/dev/fake-part5" (some "/dev/fake-part1")).1.mpr
    (Or.inr ⟨"/dev/fake-part1", rfl, by simp⟩)

/-! ## `_get_configdrive` and `work_on_disk` -/

/-- Errors surfaced by `work_on_disk`: the terminal
`InstanceDeployFailure`, or a re-raised `ProcessExecutionError` from a
collaborator. -/
inductive DeployError where
  | instanceDeployFailure
  | processExecutionError
deriving Repr, DecidableEq

/-- Device-mutating operations issued by `work_on_disk`, in order. -/
inductive Ev where
  | destroyMetadata
  | partedInvocation (args : List String)
  | mkfsEv (fs dev : String)
  | ddEv (src dst : String)
  | convertEv (src dst : String)
deriving Repr, DecidableEq

/-- The external collaborators of `disk_utils` as oracles:
`destroy_result` is the outcome of `destroy_disk_metadata`'s `dd` calls;
`is_http_url`/`fetch` model `utils.is_http_url` and `requests.get`;
`b64decode` models `base64.b64decode` (`none` = the `TypeError` for a
malformed payload); `gunzip_size` models gzip decompression to the
temporary file, yielding the decompressed byte count; `temp_path` is the
`NamedTemporaryFile` name; `probe i` is the i-th `fuser` probe of the
committer; `stat_dev dev i` is the i-th `os.stat` outcome for `dev`
(`.ok b` with `b = S_ISBLK`); `image_raw` is whether `qemu_img_info`
reports the image as raw; `block_uuid` models `blkid`. -/
structure WorkEnv where
  destroy_result : Except Unit Unit
  is_http_url : String → Bool
  fetch : String → Except Unit String
  b64decode : String → Option String
  gunzip_size : String → Except Unit Nat
  temp_path : String
  probe : Nat → Option String × Option String
  stat_dev : String → Nat → Except Unit Bool
  image_raw : Bool
  block_uuid : String → Except Unit String

/-- Embeds `_get_configdrive`: fetch the payload if it is an HTTP URL,
base64-decode it (a decode failure raises the terminal
`InstanceDeployFailure`), decompress it to a temporary file, and return
the size in MiB (rounded up by `configdrive_size_mb`) together with the
temporary file's path. -/
def get_configdrive (env : WorkEnv) (configdrive : String) :
    Except DeployError (Nat × String) :=
  match (if env.is_http_url configdrive then env.fetch configdrive
         else .ok configdrive) with
  | .error _ => .error .instanceDeployFailure
  | .ok data =>
    match env.b64decode data with
    | none => .error .instanceDeployFailure
    | some decoded =>
      match env.gunzip_size decoded with
      | .error _ => .error .instanceDeployFailure
      | .ok bytes_ => .ok (configdrive_size_mb bytes_, env.temp_path)

/-- The partition device path `dev + '-part%d' % n` (`part_template`). -/
def part_path (dev : String) (n : Nat) : String :=
  dev ++ "-part" ++ toString n

/-- The existence check `work_on_disk` runs for each optional partition:
absent roles pass; a present role must stat as a block device within the
retry budget, else the terminal `InstanceDeployFailure` is raised. -/
def check_part (env : WorkEnv) (dev : String) (n? : Option Nat) :
    Except DeployError Unit :=
  match n? with
  | none => .ok ()
  | some n =>
    match (is_block_device (env.stat_dev (part_path dev n))
        iscsi_verify_attempts).1 with
    | .error _ => .error .instanceDeployFailure
    | .ok b => if b then .ok () else .error .instanceDeployFailure

/-- Embeds `work_on_disk` as a sequential pipeline over the collaborator
oracles in `env`, returning the result — on success the resolved
(`root uuid`, `efi system partition uuid`) pair — together with the trace
of device-mutating operations issued, in order: metadata wipe (unless
`preserve_ephemeral`), configdrive preparation, the batched partitioning
invocation (when committing), per-partition block-device verification,
EFI/configdrive/image/swap/ephemeral population, and UUID resolution.
Logging and the best-effort deletion of the temporary configdrive file
(which never raises) are not modelled. -/
def work_on_disk (env : WorkEnv) (dev : String)
    (root_mb swap_mb ephemeral_mb : Nat) (ephemeral_format : String)
    (image_path : String) (preserve_ephemeral : Bool)
    (configdrive : Option String) (boot_option boot_mode : String) :
    Except DeployError (Option String × Option String) × List Ev :=
  let commit := !preserve_ephemeral
  match (if commit then env.destroy_result else .ok ()) with
  | .error _ => (.error .processExecutionError, [])
  | .ok _ =>
    let evs0 : List Ev := if commit then [.destroyMetadata] else []
    match (match configdrive with
           | none => Except.ok (0, (none : Option String))
           | some cfg =>
             (get_configdrive env cfg).map
               (fun (p : Nat × String) => (p.1, some p.2))) with
    | .error e => (.error e, evs0)
    | .ok (configdrive_mb, configdrive_file) =>
      let mp := make_partitions dev root_mb swap_mb ephemeral_mb
        configdrive_mb boot_option boot_mode
      let dp := mp.1
      let pd := mp.2
      match (if commit then
               ((match (dp.commit env.probe).result with
                 | .ok => Except.ok ()
                 | .deployFailure =>
                   Except.error DeployError.instanceDeployFailure),
                [Ev.partedInvocation dp.commit_args])
             else (Except.ok (), ([] : List Ev))) with
      | (.error e, evC) => (.error e, evs0 ++ evC)
      | (.ok _, evC) =>
        let evs1 := evs0 ++ evC
        let root_part := part_path dev pd.root
        match (is_block_device (env.stat_dev root_part)
            iscsi_verify_attempts).1 with
        | .error _ => (.error .instanceDeployFailure, evs1)
        | .ok rootblk =>
          if !rootblk then (.error .instanceDeployFailure, evs1)
          else
            match check_part env dev pd.swap with
            | .error e => (.error e, evs1)
            | .ok _ =>
            match check_part env dev pd.ephemeral with
            | .error e => (.error e, evs1)
            | .ok _ =>
            match check_part env dev pd.configdrive with
            | .error e => (.error e, evs1)
            | .ok _ =>
            match check_part env dev pd.efi with
            | .error e => (.error e, evs1)
            | .ok _ =>
              let evs2 := evs1 ++
                (match pd.efi with
                 | some n =>
                   if boot_mode = "uefi" ∧ boot_option = "local" then
                     [Ev.mkfsEv "vfat" (part_path dev n)]
                   else []
                 | none => []) ++
                (match pd.configdrive, configdrive_file with
                 | some n, some f => [Ev.ddEv f (part_path dev n)]
                 | _, _ => []) ++
                (if env.image_raw then [Ev.ddEv image_path root_part]
                 else [Ev.convertEv image_path root_part]) ++
                (match pd.swap with
                 | some n => [Ev.mkfsEv "swap" (part_path dev n)]
                 | none => []) ++
                (match pd.ephemeral with
                 | some n =>
                   if preserve_ephemeral then []
                   else [Ev.mkfsEv ephemeral_format (part_path dev n)]
                 | none => [])
              match resolve_uuids env.block_uuid root_part
                  (pd.efi.map (part_path dev)) with
              | .error _ => (.error .processExecutionError, evs2)
              | .ok m => (.ok m, evs2)

/-- C8: a configdrive payload that fails base64 decoding makes
`work_on_disk` fail with the terminal `InstanceDeployFailure` before any
partition-creation operation is issued against the device: the planner
is never populated and commit is never reached, so the trace contains no
batched partitioning invocation (it is the metadata wipe alone, or
nothing under `preserve_ephemeral`). -/
theorem work_on_disk_bad_base64 (env : WorkEnv) (dev : String)
    (root_mb swap_mb ephemeral_mb : Nat)
    (ephemeral_format image_path : String) (preserve_ephemeral : Bool)
    (cfg : String) (boot_option boot_mode : String)
    (hdestroy : env.destroy_result = .ok ())
    (hurl : env.is_http_url cfg = false)
    (hb64 : env.b64decode cfg = none) :
    (work_on_disk env dev root_mb swap_mb ephemeral_mb ephemeral_format
        image_path preserve_ephemeral (some cfg) boot_option boot_mode).1
      = .error .instanceDeployFailure ∧
    (work_on_disk env dev root_mb swap_mb ephemeral_mb ephemeral_format
        image_path preserve_ephemeral (some cfg) boot_option boot_mode).2
      = (if preserve_ephemeral then ([] : List Ev)
         else [.destroyMetadata]) ∧
    ∀ args, Ev.partedInvocation args ∉
      (work_on_disk env dev root_mb swap_mb ephemeral_mb ephemeral_format
        image_path preserve_ephemeral (some cfg) boot_option boot_mode).2 := by
  have hcfg : get_configdrive env cfg = .error .instanceDeployFailure := by
    rw [get_configdrive]
    simp [hurl, hb64]
  cases preserve_ephemeral with
  | false =>
    refine ⟨?_, ?_, ?_⟩ <;>
      simp [work_on_disk, hdestroy, hcfg, Except.map]
  | true =>
    refine ⟨?_, ?_, ?_⟩ <;>
      simp [work_on_disk, hdestroy, hcfg, Except.map]

/-- A concrete collaborator environment whose base64 decoder rejects
every payload. -/
def envBadB64 : WorkEnv :=
  { destroy_result := .ok ()
    is_http_url := fun _ => false
    fetch := fun _ => .error ()
    b64decode := fun _ => none
    gunzip_size := fun _ => .ok 0
    temp_path := "/tmp/configdrive0"
    probe := fun _ => (none, none)
    stat_dev := fun _ _ => .ok true
    image_raw := true
    block_uuid := fun _ => .ok "abcd-1234" }

/-- Witness for C8: with a malformed payload, the deploy fails and the
trace is the metadata wipe alone — no partition operation reached the
device. -/
theorem work_on_disk_bad_base64_witness :
    (work_on_disk envBadB64 "/dev/fake" 1024 0 0 "ext4" "/img" false
        (some "%%%") "netboot" "bios").1
      = .error .instanceDeployFailure ∧
    (work_on_disk envBadB64 "/dev/fake" 1024 0 0 "ext4" "/img" false
        (some "%%%") "netboot" "bios").2 = [.destroyMetadata] := by
  have h := work_on_disk_bad_base64 envBadB64 "/dev/fake" 1024 0 0 "ext4"
    "/img" false "%%%" "netboot" "bios" rfl rfl rfl
  exact ⟨h.1, h.2.1⟩

end IronicLib
